import Mathlib

/-!
Verification of the receipt-scanner front-end logic
(`src/ReceiptScannerApp.tsx`): date formatting/parsing, CSV
serialization, webhook-URL validation, the bounded upload log, the
submission pipeline and record-store edits.

Strings are modelled as their character lists (`String.data`); all
inputs of interest are ASCII, so JavaScript UTF-16 code units and Lean
characters agree.  JavaScript platform primitives used by the code
(`String.prototype.split` with a one-character separator,
`String.prototype.replace`, `String.prototype.includes`,
`String.prototype.padStart`, `parseInt` on digit strings, the `Date`
constructor on ISO strings, `new URL`, `toFixed`) are given explicit
models below; each model's doc comment states the semantics it follows.
The runtime's local time zone is modelled as UTC, so the local getters
`getFullYear`/`getMonth`/`getDate` agree with the UTC components of the
constructed instant.  Floating-point numbers only occur in
`formatFileSize`; they are modelled as exact rationals (the claims never
depend on double rounding).
-/

namespace ReceiptScanner

/-- Model of JavaScript `s.split(sep)` for a one-character separator
`sep`, on character lists: splits at every occurrence of the separator
and keeps empty fragments, so `"a-b-".split("-") = ["a","b",""]` and
`"".split("-") = [""]`. -/
def splitChar (c : Char) : List Char → List (List Char)
  | [] => [[]]
  | x :: xs =>
    if x = c then [] :: splitChar c xs
    else
      match splitChar c xs with
      | r :: rs => (x :: r) :: rs
      | [] => [[x]]

/-- Model of JavaScript `parseInt(s, 10)` restricted to all-digit
strings: the base-10 value of the digit list. -/
def digitsToNat (l : List Char) : Nat :=
  l.foldl (fun acc c => acc * 10 + (c.toNat - '0'.toNat)) 0

/-- Model of JavaScript `s.padStart(2, "0")`: prepend zeros until the
length is at least 2. -/
def padStart2 (l : List Char) : List Char :=
  List.replicate (2 - l.length) '0' ++ l

/-- `listHasSub pat l` models JavaScript `l.includes(pat)` on strings:
`pat` occurs as a contiguous substring of `l`. -/
def listHasSub (pat : List Char) : List Char → Bool
  | [] => pat.isEmpty
  | x :: xs => pat.isPrefixOf (x :: xs) || listHasSub pat xs

/-- Model of JavaScript `s.includes(pat)` on strings. -/
def strContains (s pat : String) : Bool :=
  listHasSub pat.data s.data

/-- Model of JavaScript `value.replace(/c/g, rep)` for a one-character
pattern `c`: every occurrence of `c` is replaced by the list `rep`. -/
def replaceAllChar (c : Char) (rep : List Char) : List Char → List Char
  | [] => []
  | x :: xs => (if x = c then rep else [x]) ++ replaceAllChar c rep xs

/-- Model of JavaScript `value.replace(pat, rep)` with one-character
string pattern and replacement: only the first occurrence is replaced. -/
def replaceFirstChar (c r : Char) : List Char → List Char
  | [] => []
  | x :: xs => if x = c then r :: xs else x :: replaceFirstChar c r xs

/-- Gregorian leap-year rule, as used by the JavaScript `Date`
machinery for every year (proleptic Gregorian calendar). -/
def isLeapYear (y : Nat) : Bool :=
  (y % 4 == 0 && y % 100 != 0) || y % 400 == 0

/-- Number of days of month `m` (1-based) in year `y`, per the
JavaScript `Date` machinery. -/
def daysInMonth (y m : Nat) : Nat :=
  if m = 2 then (if isLeapYear y then 29 else 28)
  else if m = 4 ∨ m = 6 ∨ m = 9 ∨ m = 11 then 30
  else 31

/-- `validYMD y m d` holds when `y-m-d` is a real proleptic-Gregorian
calendar date (1-based month and day). -/
def validYMD (y m d : Nat) : Bool :=
  1 ≤ m && m ≤ 12 && 1 ≤ d && d ≤ daysInMonth y m

/-- Model of `new Date(str)` followed by the local-time getters
`getFullYear()/getMonth()+1/getDate()` under a UTC runtime time zone,
for the strings this program constructs (`YYYY-MM-DDT00:00:00Z`).  Per
the ECMAScript Date Time String Format, the year must be exactly four
digits, month and day exactly two, and out-of-range month/day values
(e.g. `2024-02-31`) make the string an invalid instance of the format,
yielding an Invalid Date whose getters return `NaN`; `none` models that
outcome.  Strings that do not conform to the format (e.g. a three-digit
year) have implementation-defined behaviour per the ECMAScript spec and
are modelled as Invalid Date as well. -/
def jsDateLocalYMD (l : List Char) : Option (Nat × Nat × Nat) :=
  let datePart := l.takeWhile (· != 'T')
  let timePart := l.drop datePart.length
  match splitChar '-' datePart with
  | [y, m, d] =>
    if y.length = 4 && y.all Char.isDigit &&
       m.length = 2 && m.all Char.isDigit &&
       d.length = 2 && d.all Char.isDigit &&
       timePart = ("T00:00:00Z").data &&
       validYMD (digitsToNat y) (digitsToNat m) (digitsToNat d) then
      some (digitsToNat y, digitsToNat m, digitsToNat d)
    else none
  | _ => none

/-- The literal `"T00:00:00Z"` suffix appended by `parseGermanDate`
when constructing its `Date` string. -/
def isoTimeSuffix : List Char := ("T00:00:00Z").data

/-- Model of the test `/^\d{4}-\d{2}-\d{2}/.test(s)` used by
`formatDate`: the first ten characters are four digits, a dash, two
digits, a dash, two digits. -/
def isoPrefixTest (l : List Char) : Bool :=
  match l with
  | y0 :: y1 :: y2 :: y3 :: s1 :: m0 :: m1 :: s2 :: d0 :: d1 :: _ =>
    y0.isDigit && y1.isDigit && y2.isDigit && y3.isDigit &&
    (s1 == '-') && m0.isDigit && m1.isDigit && (s2 == '-') &&
    d0.isDigit && d1.isDigit
  | _ => false

/-- `formatDate` from `ReceiptScannerApp.tsx`: `"N/A"` for a null/empty
argument or one whose prefix fails the ISO test, otherwise the portion
before any `"T"` is split on `"-"` and the first three components are
reassembled as `day.month.year`. -/
def formatDate (isoDate : Option String) : String :=
  match isoDate with
  | none => "N/A"
  | some s =>
    if s.data.isEmpty || !(isoPrefixTest s.data) then "N/A"
    else
      match splitChar '-' ((splitChar 'T' s.data).headD []) with
      | year :: month :: day :: _ =>
        if year.isEmpty || month.isEmpty || day.isEmpty then "N/A"
        else String.mk (day ++ '.' :: (month ++ '.' :: year))
      | _ => "N/A"

/-- Model of the match `^(\d{1,2})\.(\d{1,2})\.(\d{2,4})$` used by
`parseGermanDate`.  Because `\d` never matches a dot, the regex accepts
exactly the strings that split on `'.'` into three all-digit groups of
lengths 1–2, 1–2 and 2–4, and the captured groups are those fragments;
the matcher is phrased through that split. -/
def matchGermanDate (l : List Char) : Option (List Char × List Char × List Char) :=
  match splitChar '.' l with
  | [d, m, y] =>
    if d.all Char.isDigit && 1 ≤ d.length && d.length ≤ 2 &&
       m.all Char.isDigit && 1 ≤ m.length && m.length ≤ 2 &&
       y.all Char.isDigit && 2 ≤ y.length && y.length ≤ 4 then
      some (d, m, y)
    else none
  | _ => none

/-- `parseGermanDate` from `ReceiptScannerApp.tsx`: match the German
date shape, zero-pad day and month, expand a two-digit year with `"20"`,
construct `new Date("YYYY-MM-DDT00:00:00Z")` and return the ISO string
only when the year/month/day getters round-trip to the parsed numbers. -/
def parseGermanDate (dateString : Option String) : Option String :=
  match dateString with
  | none => none
  | some s =>
    if s.data.isEmpty then none
    else
      match matchGermanDate s.data with
      | none => none
      | some (day0, month0, year0) =>
        let day := padStart2 day0
        let month := padStart2 month0
        let year := if year0.length = 2 then '2' :: '0' :: year0 else year0
        match jsDateLocalYMD (year ++ '-' :: (month ++ '-' :: (day ++ isoTimeSuffix))) with
        | none => none
        | some (fy, fm, fd) =>
          if (fy != digitsToNat year) || (fm != digitsToNat month) || (fd != digitsToNat day) then none
          else some (String.mk (year ++ '-' :: (month ++ '-' :: day)))

example : parseGermanDate (some "1.3.24") = some "2024-03-01" := by decide
example : parseGermanDate (some "31.02.2024") = none := by decide
example : parseGermanDate (some "2024-02-31") = none := by decide
example : parseGermanDate (some "29.02.2024") = some "2024-02-29" := by decide
example : parseGermanDate (some "29.02.2023") = none := by decide
example : parseGermanDate (some "1.3.123") = none := by decide
example : formatDate (some "2024-03-01") = "01.03.2024" := by decide
example : formatDate (some "2024-99-88") = "88.99.2024" := by decide
example : formatDate (some "2024-03-01T12:30:00Z") = "01.03.2024" := by decide
example : formatDate (some "") = "N/A" := by decide
example : formatDate none = "N/A" := by decide

/-- Receipt record (`Entry` in `ReceiptScannerApp.tsx`). -/
structure Entry where
  vendor : String
  invoiceNumber : String
  invoiceDate : Option String
  totalAmount : String
  imageName : String
  capturedAt : String
  deriving DecidableEq

/-- The cell quoting of `entriesToCSV`: `value.replace(/"/g, '""')`
wrapped in double quotes. -/
def escapeCell (value : String) : String :=
  "\"" ++ String.mk (replaceAllChar '"' ['"', '"'] value.data) ++ "\""

/-- `entriesToCSV` from `ReceiptScannerApp.tsx`.  `entry.vendor || ""`
and `entry.invoiceNumber || ""` are the identity on strings (only the
empty string is falsy), as is `String(entry.totalAmount ?? "")` since
`totalAmount` is a string. -/
def entriesToCSV (entries : List Entry) : String :=
  let header := ["Lieferant", "Rechnungsnummer", "Datum", "Betrag"]
  let rows := entries.map (fun entry =>
    [entry.vendor,
     entry.invoiceNumber,
     formatDate entry.invoiceDate,
     String.mk (replaceFirstChar '.' ',' entry.totalAmount.data)])
  let csvLines := (header :: rows).map (fun row =>
    String.intercalate ";" (row.map escapeCell))
  String.intercalate "\n" csvLines

/-- First character of a URL scheme per the WHATWG URL standard: an
ASCII alpha. -/
def isSchemeStartChar (c : Char) : Bool :=
  ('a' ≤ c && c ≤ 'z') || ('A' ≤ c && c ≤ 'Z')

/-- Subsequent characters of a URL scheme per the WHATWG URL standard:
ASCII alphanumeric, `+`, `-` or `.`. -/
def isSchemeChar (c : Char) : Bool :=
  isSchemeStartChar c || ('0' ≤ c && c ≤ '9') || c = '+' || c = '-' || c = '.'

/-- The WHATWG special schemes other than `file`; they require a
non-empty host. -/
def specialSchemes : List (List Char) :=
  [('h' :: 't' :: 't' :: 'p' :: []),
   ('h' :: 't' :: 't' :: 'p' :: 's' :: []),
   ('w' :: 's' :: []),
   ('w' :: 's' :: 's' :: []),
   ('f' :: 't' :: 'p' :: [])]

/-- Code points forbidden in a (non-opaque) host per the WHATWG URL
standard (simplified set; percent signs and IDNA processing are not
modelled, which no claim depends on). -/
def isForbiddenHostChar (c : Char) : Bool :=
  c = ' ' || c = '#' || c = '/' || c = ':' || c = '<' || c = '>' ||
  c = '@' || c = '[' || c = '\\' || c = ']' || c = '^' || c = '|' ||
  c = '?' || c.toNat < 32

/-- Model of `new URL(url)` without a base, reduced to what
`validateWebhookUrl` observes: `some protocol` (the lowercased scheme
followed by `":"`, the value of `parsed.protocol`) when parsing
succeeds, `none` when the constructor throws.  Modelled from the WHATWG
URL standard, simplified: the string must start with a scheme
(alpha, then alphanumeric/`+`/`-`/`.`) and a colon; a special scheme
other than `file` additionally needs a non-empty, well-formed host
after optional slashes; any other scheme yields an opaque path and
always parses. -/
def urlParseProtocol (url : String) : Option String :=
  let schemeChars := url.data.takeWhile isSchemeChar
  let rest := url.data.drop schemeChars.length
  match rest with
  | ':' :: afterColon =>
    if schemeChars.isEmpty || !(isSchemeStartChar (schemeChars.headD ' ')) then none
    else
      let scheme := schemeChars.map Char.toLower
      if specialSchemes.contains scheme then
        let afterSlashes := afterColon.dropWhile (fun c => c = '/' || c = '\\')
        let host := afterSlashes.takeWhile (fun c =>
          !(c = '/' || c = '\\' || c = '?' || c = '#' || c = ':'))
        if host.isEmpty || host.any isForbiddenHostChar then none
        else some (String.mk (scheme ++ [':']))
      else some (String.mk (scheme ++ [':']))
  | _ => none

/-- `validateWebhookUrl` from `ReceiptScannerApp.tsx`: false for the
empty string; otherwise construct `new URL(url)` and require protocol
`https:` or `http:`; a constructor throw yields false. -/
def validateWebhookUrl (url : String) : Bool :=
  if url.data.isEmpty then false
  else
    match urlParseProtocol url with
    | none => false
    | some protocol => protocol == "https:" || protocol == "http:"

example : validateWebhookUrl "ftp://x" = false := by decide
example : validateWebhookUrl "https://x.com/hook" = true := by decide
example : validateWebhookUrl "" = false := by decide
example : validateWebhookUrl "mailto:a@b" = false := by decide
example : validateWebhookUrl "HTTPS://x.com" = true := by decide
example : validateWebhookUrl "https://" = false := by decide

/-- Model of JavaScript `x.toFixed(digits)` for the non-negative exact
value `x = num / den`: per the ECMAScript spec, pick the integer `n`
with `n / 10^digits` closest to `x`, the larger `n` on ties, and render
with exactly `digits` decimals.  That `n` is
`⌊(2 * num * 10^digits + den) / (2 * den)⌋`. -/
def jsToFixedParts (num den digits : Nat) : String :=
  let scaled := (2 * num * 10 ^ digits + den) / (2 * den)
  if digits = 0 then toString scaled
  else
    let frac := scaled % 10 ^ digits
    let fracStr := toString frac
    toString (scaled / 10 ^ digits) ++ "." ++
      String.mk (List.replicate (digits - fracStr.length) '0') ++ fracStr

/-- The `while (size >= 1024 && unitIndex < units.length - 1)` loop of
`formatFileSize`, returning the final `unitIndex`.  After `i`
divisions the loop's `size` is exactly `bytes / 1024^i` (dividing a
double by a power of two only changes its exponent, so the JavaScript
arithmetic is exact here), and `size >= 1024` is `1024^(i+1) ≤ bytes`;
the fuel is the remaining number of allowed divisions (4 at start). -/
def fileSizeLoop (bytes : Nat) : Nat → Nat → Nat
  | 0, unitIndex => unitIndex
  | fuel + 1, unitIndex =>
    if 1024 ^ (unitIndex + 1) ≤ bytes then fileSizeLoop bytes fuel (unitIndex + 1)
    else unitIndex

/-- `formatFileSize` from `ReceiptScannerApp.tsx`, for the byte counts
(`Nat`) it receives from `File.size`; every such number is finite and
the `bytes <= 0` guard is `bytes = 0`.  The loop's exact final size
`bytes / 1024^unitIndex` is kept as a numerator/denominator pair. -/
def formatFileSize (bytes : Nat) : String :=
  if bytes = 0 then "0 B"
  else
    let units := ["B", "KB", "MB", "GB", "TB"]
    let unitIndex := fileSizeLoop bytes 4 0
    let den := 1024 ^ unitIndex
    let decimals := if 10 * den ≤ bytes ∨ unitIndex = 0 then 0 else 1
    jsToFixedParts bytes den decimals ++ " " ++ units.getD unitIndex ""

example : formatFileSize 0 = "0 B" := by decide
example : formatFileSize 512 = "512 B" := by decide
example : formatFileSize 10240 = "10 KB" := by decide
example : formatFileSize 1536 = "1.5 KB" := by decide
example : formatFileSize 1048576 = "1.0 MB" := by decide

/-- Status of an upload-log entry. -/
inductive UploadStatus where
  | pending
  | success
  | error
  deriving DecidableEq

/-- `UploadLogEntry` from `ReceiptScannerApp.tsx` (`message` is the
optional field). -/
structure UploadLogEntry where
  id : String
  fileName : String
  displayName : String
  status : UploadStatus
  timestamp : String
  message : Option String
  deriving DecidableEq

/-- Argument of `updateUploadLog`: `Partial<UploadLogEntry> & { id }`.
`none` models an absent (`undefined`) field. -/
structure UploadLogUpdate where
  id : String
  fileName : Option String := none
  displayName : Option String := none
  status : Option UploadStatus := none
  timestamp : Option String := none
  message : Option String := none
  deriving DecidableEq

/-- `updateUploadLog` from `ReceiptScannerApp.tsx`: merge the update
with any existing entry of the same id (`??` fallback chains, with
`now` standing for the `new Date().toISOString()` default), remove the
old entry, prepend the merged one and keep the first five. -/
def updateUploadLog (entry : UploadLogUpdate) (now : String) (prev : List UploadLogEntry) : List UploadLogEntry :=
  let existing := prev.find? (fun item => item.id == entry.id)
  let next : UploadLogEntry :=
    { id := entry.id
      fileName := (entry.fileName <|> existing.map (·.fileName)).getD ""
      displayName := (entry.displayName <|> (existing.map (·.displayName) <|>
        (entry.fileName <|> existing.map (·.fileName)))).getD ""
      status := (entry.status <|> existing.map (·.status)).getD .pending
      timestamp := (entry.timestamp <|> existing.map (·.timestamp)).getD now
      message := entry.message <|> existing.bind (·.message) }
  let filtered := prev.filter (fun item => item.id != entry.id)
  (next :: filtered).take 5

/-- `handleRenameUploadLog` from `ReceiptScannerApp.tsx`, with the
result of `window.prompt` supplied as `promptResult` (`none` models a
cancelled prompt): no-op when the id is absent, the prompt is cancelled
or the trimmed name is empty; otherwise only `displayName` of the
matching entry is replaced. -/
def handleRenameUploadLog (id : String) (promptResult : Option String) (prev : List UploadLogEntry) : List UploadLogEntry :=
  match prev.find? (fun item => item.id == id) with
  | none => prev
  | some _ =>
    match promptResult with
    | none => prev
    | some nextName =>
      let trimmed := nextName.trim
      if trimmed.isEmpty then prev
      else
        prev.map (fun item =>
          if item.id == id then { item with displayName := trimmed } else item)

/-- `handleRemoveUploadLog` from `ReceiptScannerApp.tsx`. -/
def handleRemoveUploadLog (id : String) (prev : List UploadLogEntry) : List UploadLogEntry :=
  prev.filter (fun item => item.id != id)

/-- `Settings` from `ReceiptScannerApp.tsx` (the theme is irrelevant to
the pipeline and kept as its identifier string). -/
structure Settings where
  webhookUrl : String
  theme : String
  deriving DecidableEq

/-- The fields of a `File` object read by `processFile`. -/
structure FileInfo where
  name : String
  type : String
  size : Nat
  deriving DecidableEq

/-- The webhook JSON payload as read by `processFile`: the four fields
it accesses, each possibly absent; values are modelled as strings
(`payload?.field || default` treats the empty string like an absent
field). -/
structure Payload where
  vendor : Option String := none
  invoiceNumber : Option String := none
  invoiceDate : Option String := none
  totalAmount : Option String := none

/-- JavaScript `x || dflt` for an optional string `x`: the default when
the field is absent or empty (falsy), the value otherwise. -/
def jsOrDefault (x : Option String) (dflt : String) : String :=
  match x with
  | none => dflt
  | some s => if s.isEmpty then dflt else s

/-- Outcome of the `fetch` call in `processFile`: either a rejected
promise (network/transport failure, carrying the thrown error's
message) or a settled HTTP response with status, optional
`content-type` header and body text. -/
inductive FetchOutcome where
  | networkFailure (message : String)
  | response (status : Nat) (contentType : Option String) (body : String)

/-- The response-interpretation steps of `processFile`, as the thrown
error message or the parsed payload: non-2xx status throws
`Webhook antwortete mit Status N`; with a JSON content type the body is
parsed by `response.json()` (a rejection propagates its own message);
otherwise an empty body throws `Server lieferte eine leere Antwort.`
and a body `JSON.parse` cannot read throws
`Antwort konnte nicht als JSON gelesen werden.`.  `parseJson` models
`JSON.parse`, returning the thrown message or the payload. -/
def interpretResponse (outcome : FetchOutcome) (parseJson : String → Except String Payload) : Except String Payload :=
  match outcome with
  | .networkFailure message => .error message
  | .response status contentType body =>
    if !(200 ≤ status && status ≤ 299) then
      .error ("Webhook antwortete mit Status " ++ toString status)
    else if strContains (contentType.getD "") "application/json" then
      parseJson body
    else if body.isEmpty then
      .error "Server lieferte eine leere Antwort."
    else
      match parseJson body with
      | .ok payload => .ok payload
      | .error _ => .error "Antwort konnte nicht als JSON gelesen werden."

/-- The application state touched by `processFile` (React state hooks
of `ReceiptScannerApp`). -/
structure AppState where
  settings : Settings
  uploadLog : List UploadLogEntry
  entries : List Entry
  lastResult : Option Entry
  lastPreviewUrl : Option String
  error : Option String
  isLoading : Bool

/-- Ambient values read during one `processFile` call: `Date.now()`,
the successive `new Date().toISOString()` results (at the pending log
entry, at `capturedAt`, at the final log entry), the `fetch` outcome,
the `JSON.parse` behaviour and the object URL created for the
preview. -/
structure ProcessEnv where
  nowMs : Nat
  tsStart : String
  tsCaptured : String
  tsFinal : String
  outcome : FetchOutcome
  parseJson : String → Except String Payload
  previewUrl : String

/-- `processFile` from `ReceiptScannerApp.tsx` as a state transition;
the returned boolean records whether the HTTP request was issued.  The
guard clause returns before any other effect; otherwise a pending log
entry is written, the response is interpreted, and either a new `Entry`
is prepended to the store with a success log update, or the error
message is surfaced with an error log update; `isLoading` is cleared in
both outcomes (`finally`). -/
def processFile (file : FileInfo) (env : ProcessEnv) (st : AppState) : AppState × Bool :=
  if st.settings.webhookUrl.isEmpty then
    ({ st with error := some "Kein Webhook hinterlegt. Bitte Einstellungen prüfen." }, false)
  else
    let logId := toString env.nowMs ++ "-" ++ file.name
    let fileType := if file.type.isEmpty then "application/octet-stream" else file.type
    let fileSizeLabel := formatFileSize file.size
    let metaLabel := fileType ++ " | " ++ fileSizeLabel
    let st1 := { st with
      isLoading := true
      error := none
      uploadLog := updateUploadLog
        { id := logId
          fileName := some file.name
          displayName := some file.name
          status := some .pending
          timestamp := some env.tsStart
          message := some ("Upload gestartet (" ++ metaLabel ++ ")") }
        env.tsStart st.uploadLog }
    match interpretResponse env.outcome env.parseJson with
    | .ok payload =>
      let newEntry : Entry :=
        { vendor := jsOrDefault payload.vendor ""
          invoiceNumber := jsOrDefault payload.invoiceNumber ""
          invoiceDate := some (jsOrDefault payload.invoiceDate "")
          totalAmount := jsOrDefault payload.totalAmount "0"
          imageName := file.name
          capturedAt := env.tsCaptured }
      ({ st1 with
          entries := newEntry :: st1.entries
          lastResult := some newEntry
          lastPreviewUrl := some env.previewUrl
          uploadLog := updateUploadLog
            { id := logId
              fileName := some file.name
              status := some .success
              timestamp := some env.tsFinal
              message := some ("Scan erfolgreich verarbeitet (" ++ metaLabel ++ ")") }
            env.tsFinal st1.uploadLog
          isLoading := false }, true)
    | .error errorMessage =>
      ({ st1 with
          error := some errorMessage
          uploadLog := updateUploadLog
            { id := logId
              fileName := some file.name
              status := some .error
              timestamp := some env.tsFinal
              message := some (metaLabel ++ " | " ++ errorMessage) }
            env.tsFinal st1.uploadLog
          isLoading := false }, true)

/-- The editable draft held by `EditableEntryRow` (all four fields are
plain input strings). -/
structure EntryDraft where
  vendor : String
  invoiceNumber : String
  invoiceDate : String
  totalAmount : String
  deriving DecidableEq

/-- `handleUpdateEntry` from `ReceiptScannerApp.tsx`, restricted to the
record store: `{ ...entry, ...updatedEntry }` spreads every `Entry`
field from `updatedEntry`, so a matching entry is replaced by
`updatedEntry` outright. -/
def handleUpdateEntry (updatedEntry : Entry) (entries : List Entry) : List Entry :=
  entries.map (fun entry =>
    if entry.capturedAt == updatedEntry.capturedAt then updatedEntry else entry)

/-- `EditableEntryRow.handleSave` composed with `handleUpdateEntry`: a
non-empty draft date that `parseGermanDate` rejects blocks the save
(field-level error, store untouched); otherwise the entry is saved with
the draft's four fields and the parsed date (`null` for an empty draft
date). -/
def handleSave (entry : Entry) (draft : EntryDraft) (entries : List Entry) : List Entry :=
  let parsedDate := if draft.invoiceDate.isEmpty then none
    else parseGermanDate (some draft.invoiceDate)
  if !draft.invoiceDate.isEmpty && parsedDate.isNone then entries
  else
    handleUpdateEntry
      { entry with
          vendor := draft.vendor
          invoiceNumber := draft.invoiceNumber
          invoiceDate := parsedDate
          totalAmount := draft.totalAmount }
      entries

/-- Claim-side restatement of `parseGermanDate`, written from the
spec's words: accept exactly `D.M.YY` / `DD.MM.YYYY` (1–2 digit day and
month, 2 or 4 digit year), zero-pad day and month, expand a 2-digit
year by prefixing `20`, then re-validate by constructing a calendar
date and checking that year/month/day round-trip exactly; `none` for
any other input and for invalid calendar dates. -/
def parseGermanDateClaimed (s : String) : Option String :=
  match splitChar '.' s.data with
  | [d, m, y] =>
    if d.all Char.isDigit && 1 ≤ d.length && d.length ≤ 2 &&
       m.all Char.isDigit && 1 ≤ m.length && m.length ≤ 2 &&
       y.all Char.isDigit && (y.length = 2 || y.length = 4) then
      let day := padStart2 d
      let month := padStart2 m
      let year := if y.length = 2 then '2' :: '0' :: y else y
      if validYMD (digitsToNat year) (digitsToNat month) (digitsToNat day) then
        some (String.mk (year ++ '-' :: (month ++ '-' :: day)))
      else none
    else none
  | _ => none

/-- Claim-side cell quoting for the CSV, written from the spec's words:
every cell is wrapped in double quotes with internal double quotes
doubled. -/
def csvCellClaimed (value : String) : String :=
  "\"" ++ String.mk (value.data.flatMap (fun c => if c = '"' then ['"', '"'] else [c])) ++ "\""

/-- Claim-side CSV row: quoted cells joined with semicolons. -/
def csvRowClaimed (cells : List String) : String :=
  String.intercalate ";" (cells.map csvCellClaimed)

/-- Claim-side data row of an entry: vendor, invoice number, formatted
date, amount with its decimal point converted to a comma. -/
def csvEntryRowClaimed (e : Entry) : List String :=
  [e.vendor, e.invoiceNumber, formatDate e.invoiceDate,
   String.mk (replaceFirstChar '.' ',' e.totalAmount.data)]

/-- Claim-side restatement of `formatDate` on matching input, written
from the claim's words: split the portion before any `T` on `-` and
join the third, second and first components with dots. -/
def formatDateClaimed (s : String) : String :=
  let parts := splitChar '-' (s.data.takeWhile (· != 'T'))
  String.mk (parts.getD 2 [] ++ '.' :: (parts.getD 1 [] ++ '.' :: parts.getD 0 []))

/-- Claim-side merge of an upload-log upsert, written from the spec's
words: fields present in the update override the old values, unset
fields fall back to the existing entry's values, and otherwise `status`
defaults to pending, `timestamp` defaults to the current time and
`displayName` defaults to the file name. -/
def upsertMergeClaimed (entry : UploadLogUpdate) (now : String) (existing : Option UploadLogEntry) : UploadLogEntry :=
  match existing with
  | some old =>
    { id := entry.id
      fileName := entry.fileName.getD old.fileName
      displayName := entry.displayName.getD old.displayName
      status := entry.status.getD old.status
      timestamp := entry.timestamp.getD old.timestamp
      message := entry.message <|> old.message }
  | none =>
    { id := entry.id
      fileName := entry.fileName.getD ""
      displayName := (entry.displayName <|> entry.fileName).getD ""
      status := entry.status.getD .pending
      timestamp := entry.timestamp.getD now
      message := entry.message }

/-! ### Lemmas about the string primitives -/

theorem splitChar_ne_nil (c : Char) (l : List Char) : splitChar c l ≠ [] := by
  induction l with
  | nil => simp [splitChar]
  | cons x xs ih =>
    simp only [splitChar]
    split
    · simp
    · match h : splitChar c xs with
      | [] => exact absurd h ih
      | r :: rs => simp

theorem splitChar_cons_of_ne (c x : Char) (xs : List Char) (h : x ≠ c) :
    splitChar c (x :: xs) =
      (x :: (splitChar c xs).headD []) :: (splitChar c xs).tail := by
  simp only [splitChar, if_neg h]
  match hs : splitChar c xs with
  | [] => exact absurd hs (splitChar_ne_nil c xs)
  | r :: rs => simp

theorem splitChar_not_mem (c : Char) (l : List Char) (h : c ∉ l) :
    splitChar c l = [l] := by
  induction l with
  | nil => simp [splitChar]
  | cons x xs ih =>
    have hx : x ≠ c := fun hxc => h (hxc ▸ List.mem_cons_self x xs)
    have hxs : c ∉ xs := fun hm => h (List.mem_cons_of_mem x hm)
    rw [splitChar_cons_of_ne c x xs hx, ih hxs]
    simp

theorem splitChar_append (c : Char) (l₁ l₂ : List Char) (h : c ∉ l₁) :
    splitChar c (l₁ ++ c :: l₂) = l₁ :: splitChar c l₂ := by
  induction l₁ with
  | nil => simp [splitChar]
  | cons x xs ih =>
    have hx : x ≠ c := fun hxc => h (hxc ▸ List.mem_cons_self x xs)
    have hxs : c ∉ xs := fun hm => h (List.mem_cons_of_mem x hm)
    rw [List.cons_append, splitChar_cons_of_ne c x _ hx, ih hxs]
    simp

theorem splitChar_join (c : Char) (l : List Char) :
    List.intercalate [c] (splitChar c l) = l := by
  induction l with
  | nil => simp [splitChar, List.intercalate]
  | cons x xs ih =>
    by_cases hx : x = c
    · subst hx
      simp only [splitChar, if_pos rfl]
      match hs : splitChar x xs with
      | [] => exact absurd hs (splitChar_ne_nil x xs)
      | r :: rs =>
        rw [hs] at ih
        simpa [List.intercalate, List.intersperse] using congrArg (x :: ·) ih

    · rw [splitChar_cons_of_ne c x xs hx]
      match hs : splitChar c xs with
      | [] => exact absurd hs (splitChar_ne_nil c xs)
      | r :: rs =>
        rw [hs] at ih
        cases rs with
        | nil => simpa [List.intercalate, List.intersperse] using congrArg (x :: ·) ih
        | cons r2 rs2 => simpa [List.intercalate, List.intersperse] using congrArg (x :: ·) ih

theorem splitChar_cons_self (c : Char) (xs : List Char) :
    splitChar c (c :: xs) = [] :: splitChar c xs := by
  simp [splitChar]

theorem headD_mem_splitChar (c : Char) (l : List Char) :
    (splitChar c l).headD [] ∈ splitChar c l := by
  match hs : splitChar c l with
  | [] => exact absurd hs (splitChar_ne_nil c l)
  | r :: rs => simp

theorem not_mem_of_mem_splitChar (c : Char) : ∀ (l p : List Char), p ∈ splitChar c l → c ∉ p := by
  intro l
  induction l with
  | nil =>
    intro p hp
    have hpnil : p = [] := by simpa [splitChar] using hp
    subst hpnil
    exact List.not_mem_nil c
  | cons x xs ih =>
    intro p hp
    by_cases hx : x = c
    · rw [hx, splitChar_cons_self] at hp
      rcases List.mem_cons.mp hp with hp1 | hp2
      · subst hp1; exact List.not_mem_nil c
      · exact ih p hp2
    · rw [splitChar_cons_of_ne c x xs hx] at hp
      rcases List.mem_cons.mp hp with hp1 | hp2
      · subst hp1
        intro hmem
        rcases List.mem_cons.mp hmem with h | h
        · exact hx h.symm
        · exact ih _ (headD_mem_splitChar c xs) h
      · match hs : splitChar c xs with
        | [] => exact absurd hs (splitChar_ne_nil c xs)
        | r :: rs =>
          rw [hs] at hp2
          simp only [List.tail_cons] at hp2
          exact ih p (hs ▸ List.mem_cons_of_mem r hp2)

theorem takeWhile_append_false (p : Char → Bool) (l₁ : List Char) (y : Char) (l₂ : List Char)
    (h1 : ∀ x ∈ l₁, p x = true) (h2 : p y = false) :
    (l₁ ++ y :: l₂).takeWhile p = l₁ := by
  induction l₁ with
  | nil => simp [List.takeWhile_cons, h2]
  | cons x xs ih =>
    have hx : p x = true := h1 x (List.mem_cons_self x xs)
    have hxs : ∀ z ∈ xs, p z = true := fun z hz => h1 z (List.mem_cons_of_mem x hz)
    simp [List.takeWhile_cons, hx, ih hxs]

theorem splitChar_headD_eq_takeWhile (c : Char) (l : List Char) :
    (splitChar c l).headD [] = l.takeWhile (· != c) := by
  induction l with
  | nil => simp [splitChar]
  | cons x xs ih =>
    by_cases hx : x = c
    · rw [hx, splitChar_cons_self]
      simp [List.takeWhile_cons]
    · rw [splitChar_cons_of_ne c x xs hx]
      have hbne : (x != c) = true := bne_iff_ne.mpr hx
      simp only [List.headD_cons, List.takeWhile_cons, hbne, if_true]
      exact congrArg (x :: ·) ih

theorem ne_of_digit_of_not_digit (c d : Char) (hc : c.isDigit = true) (hd : d.isDigit = false) :
    c ≠ d := by
  intro h
  rw [h, hd] at hc
  exact Bool.noConfusion hc

theorem not_mem_of_all_digits (l : List Char) (h : l.all Char.isDigit = true) (d : Char)
    (hd : d.isDigit = false) : d ∉ l := by
  intro hm
  have := List.all_eq_true.mp h d hm
  rw [hd] at this
  exact Bool.noConfusion this

theorem not_mem_dateList (c : Char) (hcd : c.isDigit = false) (hcdash : c ≠ '-')
    (y m d : List Char) (hy : y.all Char.isDigit = true) (hm : m.all Char.isDigit = true)
    (hd : d.all Char.isDigit = true) : c ∉ y ++ '-' :: (m ++ '-' :: d) := by
  intro hmem
  rcases List.mem_append.mp hmem with h | h
  · exact not_mem_of_all_digits y hy c hcd h
  · rcases List.mem_cons.mp h with h | h
    · exact hcdash h
    · rcases List.mem_append.mp h with h | h
      · exact not_mem_of_all_digits m hm c hcd h
      · rcases List.mem_cons.mp h with h | h
        · exact hcdash h
        · exact not_mem_of_all_digits d hd c hcd h

theorem dateList_shape (y m d rest : List Char) :
    y ++ '-' :: (m ++ '-' :: (d ++ rest)) = (y ++ '-' :: (m ++ '-' :: d)) ++ rest := by
  simp

theorem jsDateLocalYMD_build (y m d : List Char) (hy : y.all Char.isDigit = true)
    (hm : m.all Char.isDigit = true) (hd : d.all Char.isDigit = true) :
    jsDateLocalYMD (y ++ '-' :: (m ++ '-' :: (d ++ isoTimeSuffix))) =
      (if (decide (y.length = 4) && decide (m.length = 2) && decide (d.length = 2) &&
            validYMD (digitsToNat y) (digitsToNat m) (digitsToNat d)) = true then
        some (digitsToNat y, digitsToNat m, digitsToNat d)
      else none) := by
  rw [show isoTimeSuffix = ("T00:00:00Z").data from rfl]
  have hdata : ("T00:00:00Z" : String).data = 'T' :: ("00:00:00Z" : String).data := rfl
  have hTdig : ('T').isDigit = false := by decide
  have hTdash : ('T' : Char) ≠ '-' := by decide
  have hTnot : ('T' : Char) ∉ y ++ '-' :: (m ++ '-' :: d) :=
    not_mem_dateList 'T' hTdig hTdash y m d hy hm hd
  have hall : ∀ x ∈ y ++ '-' :: (m ++ '-' :: d), (x != 'T') = true := by
    intro x hx
    exact bne_iff_ne.mpr (fun hxT => hTnot (hxT ▸ hx))
  have htake : (y ++ '-' :: (m ++ '-' :: (d ++ ("T00:00:00Z").data))).takeWhile (· != 'T') =
      y ++ '-' :: (m ++ '-' :: d) := by
    rw [hdata, dateList_shape y m d ('T' :: ("00:00:00Z" : String).data)]
    exact takeWhile_append_false _ _ _ _ hall (by decide)
  have hdashdig : ('-').isDigit = false := by decide
  have hsplit : splitChar '-' (y ++ '-' :: (m ++ '-' :: d)) = [y, m, d] := by
    rw [splitChar_append '-' y _ (not_mem_of_all_digits y hy '-' hdashdig),
      splitChar_append '-' m _ (not_mem_of_all_digits m hm '-' hdashdig),
      splitChar_not_mem '-' d (not_mem_of_all_digits d hd '-' hdashdig)]
  have hdrop : (y ++ '-' :: (m ++ '-' :: (d ++ ("T00:00:00Z").data))).drop
      (y ++ '-' :: (m ++ '-' :: d)).length = ("T00:00:00Z" : String).data := by
    rw [hdata, dateList_shape y m d ('T' :: ("00:00:00Z" : String).data), List.drop_left, ← hdata]
  simp only [jsDateLocalYMD, htake, hdrop, hsplit, hy, hm, hd]
  simp

theorem digit_ne_dash (c : Char) (h : c.isDigit = true) : c ≠ '-' :=
  ne_of_digit_of_not_digit c '-' h (by decide)

theorem digit_ne_dot (c : Char) (h : c.isDigit = true) : c ≠ '.' :=
  ne_of_digit_of_not_digit c '.' h (by decide)

/-- C1: for every valid calendar date in `YYYY-MM-DD` form (given by
its ten characters: four year digits, two month digits, two day digits
around dashes, with the components forming a real calendar date),
formatting it with `formatDate` to `DD.MM.YYYY` and parsing the result
back with `parseGermanDate` returns the original ISO date exactly. -/
theorem formatDate_parseGermanDate_roundtrip
    (y0 y1 y2 y3 m0 m1 d0 d1 : Char)
    (hy0 : y0.isDigit = true) (hy1 : y1.isDigit = true)
    (hy2 : y2.isDigit = true) (hy3 : y3.isDigit = true)
    (hm0 : m0.isDigit = true) (hm1 : m1.isDigit = true)
    (hd0 : d0.isDigit = true) (hd1 : d1.isDigit = true)
    (hvalid : validYMD (digitsToNat [y0, y1, y2, y3]) (digitsToNat [m0, m1])
      (digitsToNat [d0, d1]) = true) :
    parseGermanDate (some (formatDate (some
        (String.mk [y0, y1, y2, y3, '-', m0, m1, '-', d0, d1])))) =
      some (String.mk [y0, y1, y2, y3, '-', m0, m1, '-', d0, d1]) := by
  have hy : ([y0, y1, y2, y3] : List Char).all Char.isDigit = true := by
    simp [hy0, hy1, hy2, hy3]
  have hm : ([m0, m1] : List Char).all Char.isDigit = true := by simp [hm0, hm1]
  have hd : ([d0, d1] : List Char).all Char.isDigit = true := by simp [hd0, hd1]
  have hlist : ([y0, y1, y2, y3, '-', m0, m1, '-', d0, d1] : List Char) =
      [y0, y1, y2, y3] ++ '-' :: ([m0, m1] ++ '-' :: [d0, d1]) := by simp
  have hTnot : ('T' : Char) ∉ ([y0, y1, y2, y3, '-', m0, m1, '-', d0, d1] : List Char) := by
    rw [hlist]
    exact not_mem_dateList 'T' (by decide) (by decide) _ _ _ hy hm hd
  have hdashdig : ('-').isDigit = false := by decide
  have hsplitDash : splitChar '-' ([y0, y1, y2, y3] ++ '-' :: ([m0, m1] ++ '-' :: [d0, d1])) =
      [[y0, y1, y2, y3], [m0, m1], [d0, d1]] := by
    rw [splitChar_append '-' _ _ (not_mem_of_all_digits _ hy '-' hdashdig),
      splitChar_append '-' _ _ (not_mem_of_all_digits _ hm '-' hdashdig),
      splitChar_not_mem '-' _ (not_mem_of_all_digits _ hd '-' hdashdig)]
  have hfmt : formatDate (some (String.mk [y0, y1, y2, y3, '-', m0, m1, '-', d0, d1])) =
      String.mk ([d0, d1] ++ '.' :: ([m0, m1] ++ '.' :: [y0, y1, y2, y3])) := by
    simp only [formatDate, splitChar_not_mem 'T' _ hTnot, List.headD_cons]
    rw [hlist, hsplitDash]
    simp [isoPrefixTest, hy0, hy1, hy2, hy3, hm0, hm1, hd0, hd1]
  rw [hfmt]
  have hdotdig : ('.').isDigit = false := by decide
  have hsplitDot : splitChar '.' ([d0, d1] ++ '.' :: ([m0, m1] ++ '.' :: [y0, y1, y2, y3])) =
      [[d0, d1], [m0, m1], [y0, y1, y2, y3]] := by
    rw [splitChar_append '.' _ _ (not_mem_of_all_digits _ hd '.' hdotdig),
      splitChar_append '.' _ _ (not_mem_of_all_digits _ hm '.' hdotdig),
      splitChar_not_mem '.' _ (not_mem_of_all_digits _ hy '.' hdotdig)]
  have hmatch : matchGermanDate ([d0, d1] ++ '.' :: ([m0, m1] ++ '.' :: [y0, y1, y2, y3])) =
      some ([d0, d1], [m0, m1], [y0, y1, y2, y3]) := by
    simp only [matchGermanDate, hsplitDot]
    simp [hy, hm, hd]
  simp only [parseGermanDate, hmatch]
  have hpadD : padStart2 [d0, d1] = [d0, d1] := by simp [padStart2]
  have hpadM : padStart2 [m0, m1] = [m0, m1] := by simp [padStart2]
  have hyne : ¬ (([y0, y1, y2, y3] : List Char).length = 2) := by simp
  simp only [hpadD, hpadM, if_neg hyne]
  rw [jsDateLocalYMD_build [y0, y1, y2, y3] [m0, m1] [d0, d1] hy hm hd]
  simp [hvalid]

/-- Witness for C1 at the concrete date `2024-03-01`. -/
theorem formatDate_parseGermanDate_roundtrip_witness :
    parseGermanDate (some (formatDate (some "2024-03-01"))) = some "2024-03-01" :=
  formatDate_parseGermanDate_roundtrip '2' '0' '2' '4' '0' '3' '0' '1'
    (by decide) (by decide) (by decide) (by decide) (by decide) (by decide)
    (by decide) (by decide) (by decide)

theorem padStart2_all_digits (l : List Char) (h : l.all Char.isDigit = true) :
    (padStart2 l).all Char.isDigit = true := by
  simp only [padStart2, List.all_append, Bool.and_eq_true]
  refine ⟨?_, h⟩
  rw [List.all_eq_true]
  intro x hx
  rw [List.eq_of_mem_replicate hx]
  decide

theorem padStart2_length (l : List Char) (h1 : 1 ≤ l.length) (h2 : l.length ≤ 2) :
    (padStart2 l).length = 2 := by
  simp only [padStart2, List.length_append, List.length_replicate]
  omega

theorem expandYear_all_digits (y : List Char) (h : y.all Char.isDigit = true) :
    ('2' :: '0' :: y).all Char.isDigit = true := by
  simp only [List.all_cons, h]
  decide

theorem parseGermanDate_eq_claimed (s : String) :
    parseGermanDate (some s) = parseGermanDateClaimed s := by
  rcases hsplit : splitChar '.' s.data with _ | ⟨d, _ | ⟨m, _ | ⟨y, _ | ⟨z, rest⟩⟩⟩⟩
  · exact absurd hsplit (splitChar_ne_nil '.' s.data)
  · simp only [parseGermanDate, parseGermanDateClaimed, matchGermanDate, hsplit]
    split <;> rfl
  · simp only [parseGermanDate, parseGermanDateClaimed, matchGermanDate, hsplit]
    split <;> rfl
  · -- the three-fragment case
    have hne : ¬ s.data.isEmpty = true := by
      intro h
      rw [List.isEmpty_iff] at h
      rw [h] at hsplit
      simp [splitChar] at hsplit
    simp only [parseGermanDate, parseGermanDateClaimed, matchGermanDate, hsplit, if_neg hne]
    by_cases hcode : (d.all Char.isDigit && 1 ≤ d.length && d.length ≤ 2 &&
        m.all Char.isDigit && 1 ≤ m.length && m.length ≤ 2 &&
        y.all Char.isDigit && 2 ≤ y.length && y.length ≤ 4) = true
    · have hc := hcode
      simp only [Bool.and_eq_true, decide_eq_true_eq] at hc
      obtain ⟨⟨⟨⟨⟨⟨⟨⟨hd, hd1⟩, hd2⟩, hm⟩, hm1⟩, hm2⟩, hy⟩, hy2⟩, hy4⟩ := hc
      rw [if_pos hcode]
      dsimp only
      have hdp : (padStart2 d).all Char.isDigit = true := padStart2_all_digits d hd
      have hmp : (padStart2 m).all Char.isDigit = true := padStart2_all_digits m hm
      have hdplen : (padStart2 d).length = 2 := padStart2_length d hd1 hd2
      have hmplen : (padStart2 m).length = 2 := padStart2_length m hm1 hm2
      by_cases hylen2 : y.length = 2
      · have hcl : (d.all Char.isDigit && 1 ≤ d.length && d.length ≤ 2 &&
            m.all Char.isDigit && 1 ≤ m.length && m.length ≤ 2 &&
            y.all Char.isDigit && (y.length = 2 || y.length = 4)) = true := by
          simp [hd, hd1, hd2, hm, hm1, hm2, hy, hylen2]
        rw [if_pos hcl, if_pos hylen2]
        rw [jsDateLocalYMD_build ('2' :: '0' :: y) (padStart2 m) (padStart2 d)
          (expandYear_all_digits y hy) hmp hdp]
        have hexplen : (('2' :: '0' :: y : List Char).length = 4) := by
          simp [hylen2]
        have hcond : (decide (('2' :: '0' :: y : List Char).length = 4) &&
            decide ((padStart2 m).length = 2) && decide ((padStart2 d).length = 2) &&
            validYMD (digitsToNat ('2' :: '0' :: y)) (digitsToNat (padStart2 m))
              (digitsToNat (padStart2 d))) =
            validYMD (digitsToNat ('2' :: '0' :: y)) (digitsToNat (padStart2 m))
              (digitsToNat (padStart2 d)) := by
          simp [hexplen, hdplen, hmplen]
        rw [hcond]
        by_cases hvalid : validYMD (digitsToNat ('2' :: '0' :: y)) (digitsToNat (padStart2 m))
            (digitsToNat (padStart2 d)) = true
        · rw [if_pos hvalid, if_pos hvalid]
          dsimp only
          simp
        · rw [if_neg hvalid, if_neg hvalid]
      · by_cases hylen4 : y.length = 4
        · have hcl : (d.all Char.isDigit && 1 ≤ d.length && d.length ≤ 2 &&
              m.all Char.isDigit && 1 ≤ m.length && m.length ≤ 2 &&
              y.all Char.isDigit && (y.length = 2 || y.length = 4)) = true := by
            simp [hd, hd1, hd2, hm, hm1, hm2, hy, hylen4]
          rw [if_pos hcl, if_neg hylen2]
          rw [jsDateLocalYMD_build y (padStart2 m) (padStart2 d) hy hmp hdp]
          have hcond : (decide (y.length = 4) &&
              decide ((padStart2 m).length = 2) && decide ((padStart2 d).length = 2) &&
              validYMD (digitsToNat y) (digitsToNat (padStart2 m)) (digitsToNat (padStart2 d))) =
              validYMD (digitsToNat y) (digitsToNat (padStart2 m)) (digitsToNat (padStart2 d)) := by
            simp [hylen4, hdplen, hmplen]
          rw [hcond]
          by_cases hvalid : validYMD (digitsToNat y) (digitsToNat (padStart2 m))
              (digitsToNat (padStart2 d)) = true
          · rw [if_pos hvalid, if_pos hvalid]
            dsimp only
            simp
          · rw [if_neg hvalid, if_neg hvalid]
        · have hcl : ¬ (d.all Char.isDigit && 1 ≤ d.length && d.length ≤ 2 &&
              m.all Char.isDigit && 1 ≤ m.length && m.length ≤ 2 &&
              y.all Char.isDigit && (y.length = 2 || y.length = 4)) = true := by
            simp only [Bool.and_eq_true, decide_eq_true_eq, Bool.or_eq_true]
            intro hcl
            exact absurd hcl.2 (by simp [hylen2, hylen4])
          rw [if_neg hcl, if_neg hylen2]
          rw [jsDateLocalYMD_build y (padStart2 m) (padStart2 d) hy hmp hdp]
          simp [hylen4]
    · have hcl : ¬ (d.all Char.isDigit && 1 ≤ d.length && d.length ≤ 2 &&
          m.all Char.isDigit && 1 ≤ m.length && m.length ≤ 2 &&
          y.all Char.isDigit && (y.length = 2 || y.length = 4)) = true := by
        intro hcl
        apply hcode
        simp only [Bool.and_eq_true, decide_eq_true_eq, Bool.or_eq_true] at hcl ⊢
        obtain ⟨⟨⟨⟨⟨⟨⟨hd, hd1⟩, hd2⟩, hm⟩, hm1⟩, hm2⟩, hy⟩, hyor⟩ := hcl
        refine ⟨⟨⟨⟨⟨⟨⟨⟨hd, hd1⟩, hd2⟩, hm⟩, hm1⟩, hm2⟩, hy⟩, ?_⟩, ?_⟩ <;> omega
      rw [if_neg hcode, if_neg hcl]
  · simp only [parseGermanDate, parseGermanDateClaimed, matchGermanDate, hsplit]
    split <;> rfl

/-- C2: `parseGermanDate` accepts exactly the strings of shape `D.M.YY`
or `DD.MM.YYYY` (1–2 digit day and month, 2 or 4 digit year), zero-pads
day and month, expands a 2-digit year by prefixing `20`, and
re-validates by constructing a calendar date and checking that
year/month/day round-trip exactly; it returns `none` for any other
input and for invalid calendar dates, in particular for `31.02.2024`
and `2024-02-31`. -/
theorem parseGermanDate_shape_exact :
    (∀ s : String, parseGermanDate (some s) = parseGermanDateClaimed s) ∧
    parseGermanDate (some "31.02.2024") = none ∧
    parseGermanDate (some "2024-02-31") = none :=
  ⟨parseGermanDate_eq_claimed, by decide, by decide⟩

theorem takeWhile_append_all (p : Char → Bool) (l₁ l₂ : List Char)
    (h : ∀ x ∈ l₁, p x = true) : (l₁ ++ l₂).takeWhile p = l₁ ++ l₂.takeWhile p := by
  induction l₁ with
  | nil => simp
  | cons x xs ih =>
    have hx : p x = true := h x (List.mem_cons_self x xs)
    have hxs : ∀ z ∈ xs, p z = true := fun z hz => h z (List.mem_cons_of_mem x hz)
    simp [List.takeWhile_cons, hx, ih hxs]

theorem isoPrefixTest_inv (l : List Char) (h : isoPrefixTest l = true) :
    ∃ y0 y1 y2 y3 m0 m1 d0 d1 rest,
      l = y0 :: y1 :: y2 :: y3 :: '-' :: m0 :: m1 :: '-' :: d0 :: d1 :: rest ∧
      y0.isDigit = true ∧ y1.isDigit = true ∧ y2.isDigit = true ∧ y3.isDigit = true ∧
      m0.isDigit = true ∧ m1.isDigit = true ∧ d0.isDigit = true ∧ d1.isDigit = true := by
  rcases l with _ | ⟨y0, _ | ⟨y1, _ | ⟨y2, _ | ⟨y3, _ | ⟨s1, _ | ⟨m0, _ | ⟨m1, _ | ⟨s2, _ | ⟨d0, _ | ⟨d1, rest⟩⟩⟩⟩⟩⟩⟩⟩⟩⟩ <;>
    first
      | exact Bool.noConfusion h
      | skip
  simp only [isoPrefixTest, Bool.and_eq_true, beq_iff_eq] at h
  obtain ⟨⟨⟨⟨⟨⟨⟨⟨⟨h0, h1⟩, h2⟩, h3⟩, hs1⟩, h4⟩, h5⟩, hs2⟩, h6⟩, h7⟩ := h
  subst hs1
  subst hs2
  exact ⟨y0, y1, y2, y3, m0, m1, d0, d1, rest, rfl, h0, h1, h2, h3, h4, h5, h6, h7⟩

theorem formatDate_matched_eq_claimed (s : String) (h : isoPrefixTest s.data = true) :
    formatDate (some s) = formatDateClaimed s := by
  obtain ⟨y0, y1, y2, y3, m0, m1, d0, d1, rest, hl, h0, h1, h2, h3, h4, h5, h6, h7⟩ :=
    isoPrefixTest_inv s.data h
  have hne : ¬ s.data.isEmpty = true := by
    rw [List.isEmpty_iff, hl]
    simp
  have hshape : s.data =
      ([y0, y1, y2, y3] ++ '-' :: ([m0, m1] ++ '-' :: [d0, d1])) ++ rest := by
    rw [hl]; simp
  have hprefixT : ∀ x ∈ ([y0, y1, y2, y3] ++ '-' :: ([m0, m1] ++ '-' :: [d0, d1])), (x != 'T') = true := by
    intro x hx
    refine bne_iff_ne.mpr (fun hxT => ?_)
    subst hxT
    exact not_mem_dateList 'T' (by decide) (by decide) [y0, y1, y2, y3] [m0, m1] [d0, d1]
      (by simp [h0, h1, h2, h3]) (by simp [h4, h5]) (by simp [h6, h7]) hx
  have htake : s.data.takeWhile (· != 'T') =
      [y0, y1, y2, y3] ++ '-' :: ([m0, m1] ++ '-' :: ([d0, d1] ++ rest.takeWhile (· != 'T'))) := by
    rw [hshape, takeWhile_append_all _ _ _ hprefixT]
    simp
  have hdashdig : ('-').isDigit = false := by decide
  have hy : ([y0, y1, y2, y3] : List Char).all Char.isDigit = true := by simp [h0, h1, h2, h3]
  have hm : ([m0, m1] : List Char).all Char.isDigit = true := by simp [h4, h5]
  have hsplit : splitChar '-' (s.data.takeWhile (· != 'T')) =
      [y0, y1, y2, y3] :: [m0, m1] :: splitChar '-' ([d0, d1] ++ rest.takeWhile (· != 'T')) := by
    rw [htake, splitChar_append '-' _ _ (not_mem_of_all_digits _ hy '-' hdashdig),
      splitChar_append '-' _ _ (not_mem_of_all_digits _ hm '-' hdashdig)]
  have hd0 : d0 ≠ '-' := digit_ne_dash d0 h6
  have hd1 : d1 ≠ '-' := digit_ne_dash d1 h7
  have hday : splitChar '-' ([d0, d1] ++ rest.takeWhile (· != 'T')) =
      (d0 :: d1 :: (splitChar '-' (rest.takeWhile (· != 'T'))).headD []) ::
        (splitChar '-' (rest.takeWhile (· != 'T'))).tail := by
    rw [show ([d0, d1] ++ rest.takeWhile (· != 'T') : List Char) =
      d0 :: d1 :: rest.takeWhile (· != 'T') from by simp]
    rw [splitChar_cons_of_ne '-' d0 _ hd0, splitChar_cons_of_ne '-' d1 _ hd1]
    simp only [List.headD_cons, List.tail_cons]
  rw [formatDate, formatDateClaimed]
  rw [if_neg (by simp [hne, h])]
  rw [splitChar_headD_eq_takeWhile, hsplit, hday]
  simp only [List.getD_cons_succ, List.getD_cons_zero]
  rw [if_neg (by simp)]

/-- C10: `formatDate` performs no calendar validation: whenever the
first ten characters match `\d{4}-\d{2}-\d{2}` it splits the portion
before any `T` on `-` and joins the third, second and first components
with dots (`formatDateClaimed`), even for non-dates such as
`2024-99-88`, and `N/A` is returned exactly for a null argument, the
empty string or a non-matching prefix. -/
theorem formatDate_no_validation :
    (∀ s : String, isoPrefixTest s.data = true → formatDate (some s) = formatDateClaimed s) ∧
    (∀ s : String, formatDate (some s) = "N/A" ↔
      (s.data.isEmpty = true ∨ isoPrefixTest s.data = false)) ∧
    formatDate none = "N/A" ∧
    formatDate (some "2024-99-88") = "88.99.2024" := by
  refine ⟨formatDate_matched_eq_claimed, ?_, by decide, by decide⟩
  intro s
  constructor
  · intro hna
    by_cases htest : isoPrefixTest s.data = true
    · exfalso
      obtain ⟨y0, y1, y2, y3, m0, m1, d0, d1, rest, hl, h0, h1, h2, h3, h4, h5, h6, h7⟩ :=
        isoPrefixTest_inv s.data htest
      rw [formatDate_matched_eq_claimed s htest] at hna
      have hdata := congrArg String.data hna
      have hlen := congrArg List.length hdata
      rw [formatDateClaimed] at hlen
      have hshape : s.data =
          ([y0, y1, y2, y3] ++ '-' :: ([m0, m1] ++ '-' :: [d0, d1])) ++ rest := by
        rw [hl]; simp
      have hprefixT : ∀ x ∈ ([y0, y1, y2, y3] ++ '-' :: ([m0, m1] ++ '-' :: [d0, d1])),
          (x != 'T') = true := by
        intro x hx
        refine bne_iff_ne.mpr (fun hxT => ?_)
        subst hxT
        exact not_mem_dateList 'T' (by decide) (by decide) [y0, y1, y2, y3] [m0, m1] [d0, d1]
          (by simp [h0, h1, h2, h3]) (by simp [h4, h5]) (by simp [h6, h7]) hx
      have htake : s.data.takeWhile (· != 'T') =
          [y0, y1, y2, y3] ++ '-' :: ([m0, m1] ++ '-' :: ([d0, d1] ++ rest.takeWhile (· != 'T'))) := by
        rw [hshape, takeWhile_append_all _ _ _ hprefixT]
        simp
      have hy : ([y0, y1, y2, y3] : List Char).all Char.isDigit = true := by simp [h0, h1, h2, h3]
      have hm : ([m0, m1] : List Char).all Char.isDigit = true := by simp [h4, h5]
      have hdashdig : ('-').isDigit = false := by decide
      have hsplit : splitChar '-' (s.data.takeWhile (· != 'T')) =
          [y0, y1, y2, y3] :: [m0, m1] :: splitChar '-' ([d0, d1] ++ rest.takeWhile (· != 'T')) := by
        rw [htake, splitChar_append '-' _ _ (not_mem_of_all_digits _ hy '-' hdashdig),
          splitChar_append '-' _ _ (not_mem_of_all_digits _ hm '-' hdashdig)]
      have hday : splitChar '-' ([d0, d1] ++ rest.takeWhile (· != 'T')) =
          (d0 :: d1 :: (splitChar '-' (rest.takeWhile (· != 'T'))).headD []) ::
            (splitChar '-' (rest.takeWhile (· != 'T'))).tail := by
        rw [show ([d0, d1] ++ rest.takeWhile (· != 'T') : List Char) =
          d0 :: d1 :: rest.takeWhile (· != 'T') from by simp]
        rw [splitChar_cons_of_ne '-' d0 _ (digit_ne_dash d0 h6),
          splitChar_cons_of_ne '-' d1 _ (digit_ne_dash d1 h7)]
        simp only [List.headD_cons, List.tail_cons]
      rw [hsplit, hday] at hlen
      simp only [List.getD_cons_succ, List.getD_cons_zero] at hlen
      simp at hlen
    · exact Or.inr (Bool.eq_false_iff.mpr htest)
  · intro h
    rcases h with h | h
    · rw [formatDate, if_pos (by simp [h])]
    · rw [formatDate, if_pos (by simp [h])]

/-- Witness for C10 at the concrete non-date `2024-99-88`. -/
theorem formatDate_no_validation_witness :
    isoPrefixTest ("2024-99-88").data = true ∧
    formatDate (some "2024-99-88") = formatDateClaimed "2024-99-88" :=
  ⟨by decide, formatDate_no_validation.1 "2024-99-88" (by decide)⟩

theorem replaceAllChar_eq_flatMap (c : Char) (rep l : List Char) :
    replaceAllChar c rep l = l.flatMap (fun x => if x = c then rep else [x]) := by
  induction l with
  | nil => rfl
  | cons x xs ih => simp [replaceAllChar, ih]

theorem escapeCell_eq_claimed (value : String) : escapeCell value = csvCellClaimed value := by
  rw [escapeCell, csvCellClaimed, replaceAllChar_eq_flatMap]

/-- C3: `entriesToCSV` produces the semicolon-delimited text whose
first row is the quoted header `Lieferant;Rechnungsnummer;Datum;Betrag`
followed by one row per entry in input order, every cell wrapped in
double quotes with internal quotes doubled, the date column
`formatDate invoiceDate`, the amount with its decimal point converted
to a comma, rows joined with a newline; the vendor `He said "hi"`
serializes as `"He said ""hi"""`. -/
theorem entriesToCSV_spec :
    (∀ entries : List Entry,
      entriesToCSV entries =
        String.intercalate "\n"
          (csvRowClaimed ["Lieferant", "Rechnungsnummer", "Datum", "Betrag"] ::
            entries.map (fun e => csvRowClaimed (csvEntryRowClaimed e)))) ∧
    entriesToCSV [{ vendor := "He said \"hi\"", invoiceNumber := "R1",
                    invoiceDate := some "2024-03-01", totalAmount := "19.99",
                    imageName := "img.jpg", capturedAt := "t1" }] =
      "\"Lieferant\";\"Rechnungsnummer\";\"Datum\";\"Betrag\"\n\"He said \"\"hi\"\"\";\"R1\";\"01.03.2024\";\"19,99\"" := by
  constructor
  · intro entries
    simp only [entriesToCSV, List.map_cons]
    refine congrArg (String.intercalate "\n") ?_
    refine congrArg₂ List.cons ?_ ?_
    · simp [csvRowClaimed, escapeCell_eq_claimed]
    · rw [List.map_map]
      refine List.map_congr_left (fun e he => ?_)
      simp [Function.comp, csvRowClaimed, csvEntryRowClaimed, escapeCell_eq_claimed]
  · decide

theorem orElse_some_getD {α : Type} (a : Option α) (b dflt : α) :
    (a <|> some b).getD dflt = a.getD b := by
  cases a <;> rfl

theorem updateUploadLog_head (entry : UploadLogUpdate) (now : String)
    (prev : List UploadLogEntry) :
    (updateUploadLog entry now prev).head? =
      some (upsertMergeClaimed entry now (prev.find? (fun item => item.id == entry.id))) := by
  rw [updateUploadLog]
  cases hfind : prev.find? (fun item => item.id == entry.id) with
  | none =>
    simp only [hfind, upsertMergeClaimed]
    simp [List.take_succ_cons]
  | some old =>
    simp only [hfind, upsertMergeClaimed]
    simp [List.take_succ_cons, Option.map_some', Option.some_bind, Option.some_orElse,
      orElse_some_getD]

/-- C5: an upsert merges a partial update with any existing entry
sharing its id — present fields override, unset fields fall back to the
existing entry, `status` defaults to pending, `timestamp` to the
current time, `displayName` to the file name (`upsertMergeClaimed`) —
and in particular `upsert (id, status success)` after
`upsert (id, fileName a.jpg)` yields the single entry with fileName
`a.jpg` and status success. -/
theorem updateUploadLog_merge_spec :
    (∀ (entry : UploadLogUpdate) (now : String) (prev : List UploadLogEntry),
      (updateUploadLog entry now prev).head? =
        some (upsertMergeClaimed entry now
          (prev.find? (fun item => item.id == entry.id)))) ∧
    (∀ x n1 n2 : String,
      updateUploadLog { id := x, status := some .success } n2
          (updateUploadLog { id := x, fileName := some "a.jpg" } n1 []) =
        [{ id := x, fileName := "a.jpg", displayName := "a.jpg", status := .success,
           timestamp := n1, message := none }]) := by
  refine ⟨updateUploadLog_head, ?_⟩
  intro x n1 n2
  simp [updateUploadLog, Option.orElse]

theorem validateWebhookUrl_iff (url : String) :
    validateWebhookUrl url = true ↔
      (url ≠ "" ∧ ∃ protocol, urlParseProtocol url = some protocol ∧
        (protocol = "https:" ∨ protocol = "http:")) := by
  obtain ⟨data⟩ := url
  by_cases hemp : data = []
  · subst hemp
    rw [validateWebhookUrl]
    simp
  · rw [validateWebhookUrl, if_neg (by simpa using hemp)]
    have hne : (⟨data⟩ : String) ≠ "" := by
      intro h
      exact hemp (congrArg String.data h)
    cases hp : urlParseProtocol ⟨data⟩ with
    | none => simp [hne]
    | some protocol => simp [hne, or_comm]

/-- C8: `validateWebhookUrl url` is true exactly when `url` is
non-empty and parses as an absolute URL whose scheme is `http` or
`https`; other schemes, parse failures and the empty string give false
(`ftp://x` and `""` are rejected, `https://x.com/hook` accepted). -/
theorem validateWebhookUrl_spec :
    (∀ url : String, validateWebhookUrl url = true ↔
      (url ≠ "" ∧ ∃ protocol, urlParseProtocol url = some protocol ∧
        (protocol = "https:" ∨ protocol = "http:"))) ∧
    validateWebhookUrl "ftp://x" = false ∧
    validateWebhookUrl "https://x.com/hook" = true ∧
    validateWebhookUrl "" = false :=
  ⟨validateWebhookUrl_iff, by decide, by decide, by decide⟩

theorem updateUploadLog_fresh (entry : UploadLogUpdate) (now : String)
    (prev : List UploadLogEntry) (h : entry.id ∉ prev.map (·.id)) :
    updateUploadLog entry now prev =
      ({ id := entry.id, fileName := entry.fileName.getD "",
         displayName := (entry.displayName <|> entry.fileName).getD "",
         status := entry.status.getD .pending, timestamp := entry.timestamp.getD now,
         message := entry.message } :: prev).take 5 := by
  have hfind : prev.find? (fun item => item.id == entry.id) = none := by
    rw [List.find?_eq_none]
    intro x hx
    simp only [beq_iff_eq]
    exact fun he => h (he ▸ List.mem_map_of_mem (·.id) hx)
  have hfilter : prev.filter (fun item => item.id != entry.id) = prev := by
    rw [List.filter_eq_self]
    intro x hx
    exact bne_iff_ne.mpr (fun he => h (he ▸ List.mem_map_of_mem (·.id) hx))
  rw [updateUploadLog]
  simp only [hfind, hfilter, Option.map_none', Option.none_bind, Option.orElse_none]
  rfl

theorem updateUploadLog_length_le (entry : UploadLogUpdate) (now : String)
    (prev : List UploadLogEntry) : (updateUploadLog entry now prev).length ≤ 5 := by
  rw [updateUploadLog]
  simp only [List.length_take]
  omega

theorem updateUploadLog_nodup (entry : UploadLogUpdate) (now : String)
    (prev : List UploadLogEntry) (h : (prev.map (·.id)).Nodup) :
    ((updateUploadLog entry now prev).map (·.id)).Nodup := by
  rw [updateUploadLog]
  rw [List.map_take]
  refine List.Nodup.sublist (List.take_sublist 5 _) ?_
  rw [List.map_cons]
  refine List.Nodup.cons ?_ ?_
  · intro hmem
    obtain ⟨x, hx, hxid⟩ := List.mem_map.mp hmem
    have := (List.mem_filter.mp hx).2
    rw [hxid] at this
    exact absurd rfl (bne_iff_ne.mp this)
  · exact List.Nodup.sublist ((List.filter_sublist prev).map _) h

theorem handleRenameUploadLog_ids (id : String) (promptResult : Option String)
    (prev : List UploadLogEntry) :
    (handleRenameUploadLog id promptResult prev).map (·.id) = prev.map (·.id) ∧
    (handleRenameUploadLog id promptResult prev).length = prev.length := by
  rw [handleRenameUploadLog.eq_def]
  cases prev.find? (fun item => item.id == id) with
  | none => exact ⟨rfl, rfl⟩
  | some _ =>
    cases promptResult with
    | none => exact ⟨rfl, rfl⟩
    | some nextName =>
      dsimp only
      by_cases ht : nextName.trim.isEmpty
      · rw [if_pos ht]
        exact ⟨rfl, rfl⟩
      · rw [if_neg ht]
        refine ⟨?_, by simp⟩
        rw [List.map_map]
        refine List.map_congr_left (fun x hx => ?_)
        by_cases hxid : x.id = id
        · simp [hxid]
        · simp [hxid]

theorem handleRemoveUploadLog_inv (id : String) (prev : List UploadLogEntry) :
    (handleRemoveUploadLog id prev).length ≤ prev.length ∧
    ((prev.map (·.id)).Nodup → ((handleRemoveUploadLog id prev).map (·.id)).Nodup) := by
  refine ⟨List.length_filter_le _ prev, fun h => ?_⟩
  exact List.Nodup.sublist ((List.filter_sublist prev).map _) h

/-- C4: the upload log holds at most 5 entries after every operation
and at most one entry per id: an upsert removes any prior entry with
the same id before prepending and truncates to the 5 most-recent
(preserving distinctness of ids), rename and remove preserve the ids
and the bound, and after 6 sequential upserts with distinct ids
starting from the empty log the log holds exactly 5 entries, most
recent first. -/
theorem uploadLog_bounded_unique :
    (∀ (entry : UploadLogUpdate) (now : String) (prev : List UploadLogEntry),
      (updateUploadLog entry now prev).length ≤ 5) ∧
    (∀ (entry : UploadLogUpdate) (now : String) (prev : List UploadLogEntry),
      (prev.map (·.id)).Nodup → ((updateUploadLog entry now prev).map (·.id)).Nodup) ∧
    (∀ (id : String) (promptResult : Option String) (prev : List UploadLogEntry),
      (handleRenameUploadLog id promptResult prev).map (·.id) = prev.map (·.id) ∧
      (handleRenameUploadLog id promptResult prev).length = prev.length) ∧
    (∀ (id : String) (prev : List UploadLogEntry),
      (handleRemoveUploadLog id prev).length ≤ prev.length ∧
      ((prev.map (·.id)).Nodup → ((handleRemoveUploadLog id prev).map (·.id)).Nodup)) ∧
    (∀ (e1 e2 e3 e4 e5 e6 : UploadLogUpdate) (n1 n2 n3 n4 n5 n6 : String),
      ([e1.id, e2.id, e3.id, e4.id, e5.id, e6.id] : List String).Nodup →
      (updateUploadLog e6 n6 (updateUploadLog e5 n5 (updateUploadLog e4 n4
          (updateUploadLog e3 n3 (updateUploadLog e2 n2
            (updateUploadLog e1 n1 [])))))).length = 5 ∧
      (updateUploadLog e6 n6 (updateUploadLog e5 n5 (updateUploadLog e4 n4
          (updateUploadLog e3 n3 (updateUploadLog e2 n2
            (updateUploadLog e1 n1 [])))))).map (·.id) =
        [e6.id, e5.id, e4.id, e3.id, e2.id]) := by
  refine ⟨updateUploadLog_length_le, updateUploadLog_nodup, handleRenameUploadLog_ids,
    handleRemoveUploadLog_inv, ?_⟩
  intro e1 e2 e3 e4 e5 e6 n1 n2 n3 n4 n5 n6 hnodup
  simp at hnodup
  obtain ⟨⟨h12, h13, h14, h15, h16⟩, ⟨h23, h24, h25, h26⟩, ⟨h34, h35, h36⟩, ⟨h45, h46⟩, h56⟩ :=
    hnodup
  rw [updateUploadLog_fresh e1 n1 [] (by simp)]
  rw [updateUploadLog_fresh e2 n2 _ (by simp [List.take]; exact fun h => h12 h.symm)]
  rw [updateUploadLog_fresh e3 n3 _
    (by simp [List.take]; exact ⟨fun h => h23 h.symm, fun h => h13 h.symm⟩)]
  rw [updateUploadLog_fresh e4 n4 _
    (by simp [List.take];
        exact ⟨fun h => h34 h.symm, fun h => h24 h.symm, fun h => h14 h.symm⟩)]
  rw [updateUploadLog_fresh e5 n5 _
    (by simp [List.take];
        exact ⟨fun h => h45 h.symm, fun h => h35 h.symm, fun h => h25 h.symm,
          fun h => h15 h.symm⟩)]
  rw [updateUploadLog_fresh e6 n6 _
    (by simp [List.take];
        exact ⟨fun h => h56 h.symm, fun h => h46 h.symm, fun h => h36 h.symm,
          fun h => h26 h.symm, fun h => h16 h.symm⟩)]
  simp [List.take]

/-- Witness for C4: six upserts with the distinct ids u1–u6 on the
empty log leave exactly the five most recent, and the bound holds at a
concrete upsert. -/
theorem uploadLog_bounded_unique_witness :
    (updateUploadLog { id := "u1" } "t" []).length ≤ 5 ∧
    (([("u1" : String), "u2", "u3", "u4", "u5", "u6"] : List String).Nodup ∧
      (updateUploadLog { id := "u6" } "t6" (updateUploadLog { id := "u5" } "t5"
        (updateUploadLog { id := "u4" } "t4" (updateUploadLog { id := "u3" } "t3"
          (updateUploadLog { id := "u2" } "t2"
            (updateUploadLog { id := "u1" } "t1" [])))))).map (·.id) =
        ["u6", "u5", "u4", "u3", "u2"]) :=
  ⟨uploadLog_bounded_unique.1 { id := "u1" } "t" [],
   by decide,
   (uploadLog_bounded_unique.2.2.2.2 { id := "u1" } { id := "u2" } { id := "u3" }
     { id := "u4" } { id := "u5" } { id := "u6" } "t1" "t2" "t3" "t4" "t5" "t6"
     (by decide)).2⟩

theorem handleUpdateEntry_getElem (u : Entry) (entries : List Entry) (i : Nat) :
    (handleUpdateEntry u entries)[i]? =
      (entries[i]?).map (fun e => if e.capturedAt == u.capturedAt then u else e) := by
  rw [handleUpdateEntry, List.getElem?_map]

/-- C9: a user edit saves only the four draft fields (vendor, invoice
number, parsed invoice date, amount) into the entry whose `capturedAt`
key matches, leaving `capturedAt` and `imageName` of that entry and
every other entry unchanged; a save whose non-empty date fails
`parseGermanDate` is blocked and leaves the store unchanged. -/
theorem handleSave_frame (entry : Entry) (draft : EntryDraft) (entries : List Entry) :
    (handleSave entry draft entries).length = entries.length ∧
    (∀ (i : Nat) (old : Entry), entries[i]? = some old →
      old.capturedAt ≠ entry.capturedAt →
      (handleSave entry draft entries)[i]? = some old) ∧
    (∀ i : Nat, entries[i]? = some entry →
      ∃ r : Entry, (handleSave entry draft entries)[i]? = some r ∧
        r.capturedAt = entry.capturedAt ∧ r.imageName = entry.imageName ∧
        ((draft.invoiceDate.isEmpty = true ∨ parseGermanDate (some draft.invoiceDate) ≠ none) →
          r.vendor = draft.vendor ∧ r.invoiceNumber = draft.invoiceNumber ∧
          r.totalAmount = draft.totalAmount ∧
          r.invoiceDate = (if draft.invoiceDate.isEmpty then none
            else parseGermanDate (some draft.invoiceDate)))) ∧
    (draft.invoiceDate.isEmpty = false → parseGermanDate (some draft.invoiceDate) = none →
      handleSave entry draft entries = entries) := by
  by_cases hemp : draft.invoiceDate.isEmpty = true
  · have hs : handleSave entry draft entries =
        handleUpdateEntry { entry with vendor := draft.vendor, invoiceNumber := draft.invoiceNumber, invoiceDate := none, totalAmount := draft.totalAmount } entries := by
      simp [handleSave, hemp]
    refine ⟨?_, ?_, ?_, ?_⟩
    · rw [hs, handleUpdateEntry]
      simp
    · intro i old hi hne
      rw [hs, handleUpdateEntry_getElem, hi]
      simp only [Option.map_some']
      rw [if_neg (by simpa using hne)]
    · intro i hi
      rw [hs, handleUpdateEntry_getElem, hi]
      refine ⟨{ entry with vendor := draft.vendor, invoiceNumber := draft.invoiceNumber, invoiceDate := none, totalAmount := draft.totalAmount }, by simp, rfl, rfl, fun _ => ⟨rfl, rfl, rfl, by simp [hemp]⟩⟩
    · intro hne
      rw [hemp] at hne
      exact absurd hne (by simp)
  · have hemp' : draft.invoiceDate.isEmpty = false := by
      cases h : draft.invoiceDate.isEmpty
      · rfl
      · exact absurd h hemp
    by_cases hparse : parseGermanDate (some draft.invoiceDate) = none
    · have hs : handleSave entry draft entries = entries := by
        simp [handleSave, hemp', hparse]
      refine ⟨by rw [hs], ?_, ?_, fun _ _ => hs⟩
      · intro i old hi hne
        rw [hs, hi]
      · intro i hi
        refine ⟨entry, by rw [hs, hi], rfl, rfl, fun hcontra => ?_⟩
        rcases hcontra with h | h
        · exact absurd h (by simp [hemp'])
        · exact absurd hparse h
    · have hnone : (parseGermanDate (some draft.invoiceDate)).isNone = false := by
        cases hp : parseGermanDate (some draft.invoiceDate)
        · exact absurd hp hparse
        · rfl
      have hs : handleSave entry draft entries =
          handleUpdateEntry { entry with vendor := draft.vendor, invoiceNumber := draft.invoiceNumber, invoiceDate := parseGermanDate (some draft.invoiceDate), totalAmount := draft.totalAmount } entries := by
        simp [handleSave, hemp', hnone]
      refine ⟨?_, ?_, ?_, ?_⟩
      · rw [hs, handleUpdateEntry]
        simp
      · intro i old hi hne
        rw [hs, handleUpdateEntry_getElem, hi]
        simp only [Option.map_some']
        rw [if_neg (by simpa using hne)]
      · intro i hi
        rw [hs, handleUpdateEntry_getElem, hi]
        refine ⟨{ entry with vendor := draft.vendor, invoiceNumber := draft.invoiceNumber, invoiceDate := parseGermanDate (some draft.invoiceDate), totalAmount := draft.totalAmount }, by simp, rfl, rfl, fun _ => ⟨rfl, rfl, rfl, by simp [hemp']⟩⟩
      · intro _ hcontra
        exact absurd hcontra hparse

/-- Witness for C9: saving an edit of the entry keyed `T1` leaves the
unrelated entry keyed `T2` untouched. -/
theorem handleSave_frame_witness :
    (handleSave
        { vendor := "v", invoiceNumber := "n", invoiceDate := some "2024-03-01",
          totalAmount := "5", imageName := "a.jpg", capturedAt := "T1" }
        { vendor := "v2", invoiceNumber := "n2", invoiceDate := "02.04.2024",
          totalAmount := "7" }
        [{ vendor := "w", invoiceNumber := "m", invoiceDate := none, totalAmount := "1",
           imageName := "b.jpg", capturedAt := "T2" },
         { vendor := "v", invoiceNumber := "n", invoiceDate := some "2024-03-01",
           totalAmount := "5", imageName := "a.jpg", capturedAt := "T1" }])[0]? =
      some { vendor := "w", invoiceNumber := "m", invoiceDate := none, totalAmount := "1",
             imageName := "b.jpg", capturedAt := "T2" } :=
  (handleSave_frame
    { vendor := "v", invoiceNumber := "n", invoiceDate := some "2024-03-01",
      totalAmount := "5", imageName := "a.jpg", capturedAt := "T1" }
    { vendor := "v2", invoiceNumber := "n2", invoiceDate := "02.04.2024", totalAmount := "7" }
    [{ vendor := "w", invoiceNumber := "m", invoiceDate := none, totalAmount := "1",
       imageName := "b.jpg", capturedAt := "T2" },
     { vendor := "v", invoiceNumber := "n", invoiceDate := some "2024-03-01",
       totalAmount := "5", imageName := "a.jpg", capturedAt := "T1" }]).2.1 0
    { vendor := "w", invoiceNumber := "m", invoiceDate := none, totalAmount := "1",
      imageName := "b.jpg", capturedAt := "T2" } (by decide) (by decide)

/-- C6: with an empty webhook URL, `processFile` fails immediately with
the configuration error: the error message is set, no upload-log entry
is created, the record store is untouched and no HTTP request is
issued. -/
theorem processFile_no_webhook (file : FileInfo) (env : ProcessEnv) (st : AppState)
    (h : st.settings.webhookUrl = "") :
    processFile file env st =
      ({ st with error := some "Kein Webhook hinterlegt. Bitte Einstellungen prüfen." }, false) ∧
    (processFile file env st).1.uploadLog = st.uploadLog ∧
    (processFile file env st).1.entries = st.entries ∧
    (processFile file env st).2 = false := by
  have hemp : st.settings.webhookUrl.isEmpty = true := by
    rw [h]
    rfl
  have hmain : processFile file env st =
      ({ st with error := some "Kein Webhook hinterlegt. Bitte Einstellungen prüfen." }, false) := by
    rw [processFile.eq_def, if_pos hemp]
  exact ⟨hmain, by rw [hmain], by rw [hmain], by rw [hmain]⟩

/-- Witness for C6 at a concrete state with an unset webhook URL. -/
theorem processFile_no_webhook_witness :
    processFile { name := "a.jpg", type := "image/jpeg", size := 10240 }
        { nowMs := 7, tsStart := "t1", tsCaptured := "t2", tsFinal := "t3",
          outcome := FetchOutcome.response 200 none "", parseJson := fun _ => Except.error "x",
          previewUrl := "blob:1" }
        { settings := { webhookUrl := "", theme := "dark" }, uploadLog := [], entries := [],
          lastResult := none, lastPreviewUrl := none, error := none, isLoading := false } =
      ({ settings := { webhookUrl := "", theme := "dark" }, uploadLog := [], entries := [],
         lastResult := none, lastPreviewUrl := none,
         error := some "Kein Webhook hinterlegt. Bitte Einstellungen prüfen.",
         isLoading := false }, false) :=
  (processFile_no_webhook { name := "a.jpg", type := "image/jpeg", size := 10240 }
    { nowMs := 7, tsStart := "t1", tsCaptured := "t2", tsFinal := "t3",
      outcome := FetchOutcome.response 200 none "", parseJson := fun _ => Except.error "x",
      previewUrl := "blob:1" }
    { settings := { webhookUrl := "", theme := "dark" }, uploadLog := [], entries := [],
      lastResult := none, lastPreviewUrl := none, error := none, isLoading := false } rfl).1

/-- C7: on any submission failure after the pending log entry was
created (non-2xx status, empty body, unparseable JSON, transport
failure — exactly the cases where `interpretResponse` yields an error
message), the upload log's head entry carries status error with the
failure's message concatenated after the MIME-type/size metadata, the
error message is surfaced in the state, the record store is untouched,
and a webhook answering HTTP 500 yields a message containing `500`. -/
theorem processFile_failure (file : FileInfo) (env : ProcessEnv) (st : AppState) (msg : String)
    (hurl : st.settings.webhookUrl.isEmpty = false)
    (hfail : interpretResponse env.outcome env.parseJson = Except.error msg) :
    (processFile file env st).1.entries = st.entries ∧
    (processFile file env st).1.error = some msg ∧
    (processFile file env st).2 = true ∧
    (processFile file env st).1.uploadLog.head? = some
      { id := toString env.nowMs ++ "-" ++ file.name,
        fileName := file.name,
        displayName := file.name,
        status := UploadStatus.error,
        timestamp := env.tsFinal,
        message := some ((if file.type.isEmpty then "application/octet-stream" else file.type)
          ++ " | " ++ formatFileSize file.size ++ " | " ++ msg) } ∧
    (∀ (contentType : Option String) (body : String),
      env.outcome = FetchOutcome.response 500 contentType body →
      strContains msg "500" = true) := by
  have hred : processFile file env st =
      ({ st with
          isLoading := false
          error := some msg
          uploadLog := updateUploadLog
            { id := toString env.nowMs ++ "-" ++ file.name
              fileName := some file.name
              status := some .error
              timestamp := some env.tsFinal
              message := some ((if file.type.isEmpty then "application/octet-stream" else file.type)
                ++ " | " ++ formatFileSize file.size ++ " | " ++ msg) }
            env.tsFinal
            (updateUploadLog
              { id := toString env.nowMs ++ "-" ++ file.name
                fileName := some file.name
                displayName := some file.name
                status := some .pending
                timestamp := some env.tsStart
                message := some ("Upload gestartet ("
                  ++ ((if file.type.isEmpty then "application/octet-stream" else file.type)
                    ++ " | " ++ formatFileSize file.size) ++ ")") }
              env.tsStart st.uploadLog) }, true) := by
    rw [processFile.eq_def, if_neg (by simp [hurl])]
    simp only [hfail]
  refine ⟨by rw [hred], by rw [hred], by rw [hred], ?_, ?_⟩
  · rw [hred]
    dsimp only
    rw [updateUploadLog_head]
    have hfind : (updateUploadLog
        { id := toString env.nowMs ++ "-" ++ file.name
          fileName := some file.name
          displayName := some file.name
          status := some .pending
          timestamp := some env.tsStart
          message := some ("Upload gestartet ("
            ++ ((if file.type.isEmpty then "application/octet-stream" else file.type)
              ++ " | " ++ formatFileSize file.size) ++ ")") }
        env.tsStart st.uploadLog).find?
          (fun item => item.id == toString env.nowMs ++ "-" ++ file.name) =
        some { id := toString env.nowMs ++ "-" ++ file.name
               fileName := file.name
               displayName := file.name
               status := .pending
               timestamp := env.tsStart
               message := some ("Upload gestartet ("
                 ++ ((if file.type.isEmpty then "application/octet-stream" else file.type)
                   ++ " | " ++ formatFileSize file.size) ++ ")") } := by
      rw [updateUploadLog]
      simp [List.take_succ_cons, List.find?_cons, Option.some_orElse]
    rw [hfind]
    simp only [upsertMergeClaimed]
    rfl
  · intro contentType body hout
    rw [hout] at hfail
    rw [interpretResponse] at hfail
    rw [if_pos (by decide)] at hfail
    have hmsg : msg = "Webhook antwortete mit Status " ++ toString (500 : Nat) := by
      have := hfail
      simp only [Except.error.injEq] at this
      exact this.symm
    rw [hmsg]
    decide

/-- Witness for C7 at a concrete webhook answering HTTP 500. -/
theorem processFile_failure_witness :
    (processFile { name := "a.jpg", type := "image/jpeg", size := 10240 }
        { nowMs := 7, tsStart := "t1", tsCaptured := "t2", tsFinal := "t3",
          outcome := FetchOutcome.response 500 none "", parseJson := fun _ => Except.error "x",
          previewUrl := "blob:1" }
        { settings := { webhookUrl := "https://example.com/hook", theme := "dark" },
          uploadLog := [], entries := [], lastResult := none, lastPreviewUrl := none,
          error := none, isLoading := false }).1.error =
      some "Webhook antwortete mit Status 500" ∧
    strContains "Webhook antwortete mit Status 500" "500" = true :=
  ⟨(processFile_failure { name := "a.jpg", type := "image/jpeg", size := 10240 }
      { nowMs := 7, tsStart := "t1", tsCaptured := "t2", tsFinal := "t3",
        outcome := FetchOutcome.response 500 none "", parseJson := fun _ => Except.error "x",
        previewUrl := "blob:1" }
      { settings := { webhookUrl := "https://example.com/hook", theme := "dark" },
        uploadLog := [], entries := [], lastResult := none, lastPreviewUrl := none,
        error := none, isLoading := false }
      "Webhook antwortete mit Status 500" (by decide) rfl).2.1,
   (processFile_failure { name := "a.jpg", type := "image/jpeg", size := 10240 }
      { nowMs := 7, tsStart := "t1", tsCaptured := "t2", tsFinal := "t3",
        outcome := FetchOutcome.response 500 none "", parseJson := fun _ => Except.error "x",
        previewUrl := "blob:1" }
      { settings := { webhookUrl := "https://example.com/hook", theme := "dark" },
        uploadLog := [], entries := [], lastResult := none, lastPreviewUrl := none,
        error := none, isLoading := false }
      "Webhook antwortete mit Status 500" (by decide) rfl).2.2.2.2 none "" rfl⟩

end ReceiptScanner
